import Mathlib

/-!
Verification of the ivy desk-calculator core (value model, operator
dispatch, recursive-descent parser/evaluator) against its specification.

The Go source is embedded shallowly: the promotion lattice, the per-rank
operator tables, vector broadcasting, and the parser's token plumbing are
translated function by function.  Panics become `Except.error`; the
in-place mutation performed by `big.Int.Exp` through `big.Rat.Num`
aliasing is made explicit by returning the post-call value of the base
operand.  Pieces of the repository that are not part of the provided
sources (the scalar type definitions, `shrink`, the `Binary` dispatcher,
the literal leaf parsers and the unary table) are modelled from the
specification and marked as such.
-/

/-! ## Value model -/

/-- The promotion lattice tags, in rank order (value.go). -/
inductive valueType where
  | intType
  | bigIntType
  | bigRatType
  | vectorType
deriving DecidableEq, Repr

/-- Numeric rank of a type tag: SmallInt < BigInt < BigRational < Vector. -/
def valueType.rank : valueType → Nat
  | .intType => 0
  | .bigIntType => 1
  | .bigRatType => 2
  | .vectorType => 3

/-- binaryArithType returns the maximum of the two types, so the smaller
value is appropriately up-converted (binary.go). -/
def binaryArithType (t1 t2 : valueType) : valueType :=
  if t1.rank > t2.rank then t1 else t2

/-- divType is like binaryArithType but never returns smaller than BigInt
(binary.go). -/
def divType (t1 t2 : valueType) : valueType :=
  binaryArithType (if t1 = .intType then .bigIntType else t1) t2

/-- rationalType promotes scalars to rationals so we can do rational
division (binary.go). -/
def rationalType (t1 t2 : valueType) : valueType :=
  binaryArithType (if t1.rank < valueType.bigRatType.rank then .bigRatType else t1) t2

/-- The closed Value variant: SmallInt (native fixed-width), BigInt,
BigRat (always normalized, as Go's big.Rat is) and Vector.  The scalar
type definitions are outside the provided sources; modelled from the
spec's data model (§3). -/
inductive Value where
  | int : ℤ → Value
  | bigInt : ℤ → Value
  | bigRat : ℚ → Value
  | vector : List Value → Value

/-- whichType reports a Value's rank tag.  Modelled from the spec: the
original per-type dispatch helper is outside the provided sources. -/
def whichType : Value → valueType
  | .int _ => .intType
  | .bigInt _ => .bigIntType
  | .bigRat _ => .bigRatType
  | .vector _ => .vectorType

/-- Largest native signed integer.  Modelled from the spec: SmallInt
"must fit in the platform's native signed integer range" (64-bit). -/
def maxInt64 : ℤ := 2 ^ 63 - 1

/-- Smallest native signed integer (see `maxInt64`). -/
def minInt64 : ℤ := -(2 ^ 63)

/-- Native 64-bit wraparound, applied where Go's int64 arithmetic can
overflow (the spec documents that overflow silently wraps). -/
def wrap64 (x : ℤ) : ℤ := (x + 2 ^ 63) % 2 ^ 64 - 2 ^ 63

/-- valueInt64 packages a native integer as a SmallInt Value.  Modelled
from the spec: the constructor is outside the provided sources. -/
def valueInt64 (x : ℤ) : Value := .int x

def zero : Value := valueInt64 0

def one : Value := valueInt64 1

def minusOne : Value := valueInt64 (-1)

/-- shrink canonicalizes a Value to the lowest rank that represents it
exactly.  Modelled from the spec (§3, §4.1): a BigInt that fits the
native range becomes a SmallInt; a BigRational with denominator 1
becomes a BigInt/SmallInt; shrinking is idempotent. -/
def shrink : Value → Value
  | .bigInt x => if minInt64 ≤ x ∧ x ≤ maxInt64 then .int x else .bigInt x
  | .bigRat q =>
      if q.den = 1 then
        if minInt64 ≤ q.num ∧ q.num ≤ maxInt64 then .int q.num else .bigInt q.num
      else .bigRat q
  | v => v

/-- The exact numeric content of a scalar Value (verification-side
observable; vectors have none). -/
def toRat : Value → Option ℚ
  | .int x => some (x : ℚ)
  | .bigInt x => some (x : ℚ)
  | .bigRat q => some q
  | .vector _ => none

/-- ToType promotes a Value to a requested rank.  The Vector case is
vector.go's `ToType` (every scalar target panics); the scalar cases are
modelled from the spec (§4.1): upward conversions embed exactly, a
scalar promoted to Vector becomes a one-element Vector, and any implicit
narrowing is a contract violation. -/
def ToType (v : Value) (t : valueType) : Except String Value :=
  match v, t with
  | .int x, .intType => .ok (.int x)
  | .int x, .bigIntType => .ok (.bigInt x)
  | .int x, .bigRatType => .ok (.bigRat (x : ℚ))
  | .int x, .vectorType => .ok (.vector [.int x])
  | .bigInt _, .bigIntType => .ok v
  | .bigInt x, .bigRatType => .ok (.bigRat (x : ℚ))
  | .bigInt _, .vectorType => .ok (.vector [v])
  | .bigRat _, .bigRatType => .ok v
  | .bigRat _, .vectorType => .ok (.vector [v])
  | .vector _, .vectorType => .ok v
  | _, _ => .error "illegal conversion"

/-! ## Operator dispatch -/

/-- A scalar-or-vector binary implementation, possibly failing. -/
abbrev BinFn := Value → Value → Except String Value

/-- Sequential elementwise application, first failure aborting the whole
operation (the shape of binary.go's result-building loops, where a panic
in one element abandons the vector). -/
def mapE {α : Type} (f : α → Except String Value) : List α → Except String (List Value)
  | [] => .ok []
  | a :: as => do
      let b ← f a
      let bs ← mapE f as
      .ok (b :: bs)

/-- binaryVectorOp applies op elementwise to i and j (binary.go),
parametrized by the recursive dispatcher `recur` (Go resolves the cycle
through its package-level op tables). -/
def binaryVectorOp (recur : Value → String → Value → Except String Value)
    (i : Value) (op : String) (j : Value) : Except String Value :=
  match i, j with
  | .vector u, .vector v =>
      if u.length = 1 then
        (Value.vector) <$> mapE (fun vk => recur (u.headD zero) op vk) v
      else if v.length = 1 then
        (Value.vector) <$> mapE (fun uk => recur uk op (v.headD zero)) u
      else if u.length ≠ v.length then
        .error ("length mismatch: " ++ toString u.length ++ " " ++ toString v.length)
      else
        (Value.vector) <$> mapE (fun p => recur p.1 op p.2) (u.zip v)
  | _, _ => .error "not a vector"

/-- binaryBigIntOp runs a big-integer primitive and shrinks (binary.go). -/
def binaryBigIntOp (op : ℤ → ℤ → ℤ) (u v : Value) : Except String Value :=
  match u, v with
  | .bigInt i, .bigInt j => .ok (shrink (.bigInt (op i j)))
  | _, _ => .error "type assertion failed"

/-- binaryBigRatOp runs a big-rational primitive and shrinks (binary.go). -/
def binaryBigRatOp (op : ℚ → ℚ → ℚ) (u v : Value) : Except String Value :=
  match u, v with
  | .bigRat i, .bigRat j => .ok (shrink (.bigRat (op i j)))
  | _, _ => .error "type assertion failed"

/-- toInt turns the boolean into 0 or 1 (binary.go). -/
def toIntB (t : Bool) : Value := if t then one else zero

/-- shiftCount converts x to an unsigned integer (binary.go); the
BigInt case shrinks and retries the SmallInt test. -/
def shiftCount (x : Value) : Except String ℕ :=
  match x with
  | .int c => if 0 ≤ c ∧ c < maxInt64 then .ok c.toNat else .error ("illegal shift count " ++ toString c)
  | .bigInt c =>
      match shrink (.bigInt c) with
      | .int c' => if 0 ≤ c' ∧ c' < maxInt64 then .ok c'.toNat else .error ("illegal shift count " ++ toString c')
      | _ => .error "illegal shift count type"
  | _ => .error "illegal shift count type"

/-- The BigInt branch of pow (binary.go): exponent 0 yields one, a
negative exponent panics, otherwise big-integer exponentiation via
bigIntPow, shrunk by binaryBigIntOp. -/
def powBigIntFn (u v : Value) : Except String Value :=
  match v with
  | .bigInt i =>
      if i = 0 then .ok one
      else if i < 0 then .error "negative exponent not implemented"
      else binaryBigIntOp (fun a b => a ^ b.toNat) u v
  | _ => .error "type assertion failed"

/-- The BigRat branch of pow (binary.go), with the observable state of
the base operand made explicit.  The Go code takes `rat.Num()` and
`rat.Denom()` — pointers into the base operand's representation — and
runs `Exp` in place on them, so after the call the base operand itself
holds numerator^exp and denominator^exp; `SetFrac` then builds the
returned value from those same big integers.  The pair returned here is
(result, value of the base operand after the call). -/
def powBigRatFn (u v : ℚ) : Except String (Value × ℚ) :=
  if v = 0 then .ok (one, u)
  else if v < 0 then .error "negative exponent not implemented"
  else
    let exp := v.num.toNat
    let num := u.num ^ exp
    let den := (u.den : ℤ) ^ exp
    .ok (.bigRat (Rat.divInt num den), Rat.divInt num den)

/-- The BigRat branch of pow as a table entry (result only). -/
def powBigRatValueFn (u v : Value) : Except String Value :=
  match u, v with
  | .bigRat a, .bigRat b => (powBigRatFn a b).map Prod.fst
  | _, _ => .error "type assertion failed"

/-- The BigRat branch of quo (binary.go): true rational division,
division by zero checked on the divisor first. -/
def quoRatFn (u v : Value) : Except String Value :=
  match v with
  | .bigRat x =>
      if x = 0 then .error "division by zero"
      else binaryBigRatOp (fun a b => a / b) u v
  | _ => .error "type assertion failed"

/-- A binary operator: a type-selection rule plus a per-rank
implementation table with optional entries (binary.go). -/
structure binaryOp where
  whichType : valueType → valueType → valueType
  fn : valueType → Option BinFn

/-- The `+` operator (binary.go). -/
def addOp (recur : Value → String → Value → Except String Value) : binaryOp where
  whichType := binaryArithType
  fn := fun t =>
    match t with
    | .intType => some fun u v =>
        match u, v with
        | .int a, .int b => .ok (valueInt64 (wrap64 (a + b)))
        | _, _ => .error "type assertion failed"
    | .bigIntType => some (binaryBigIntOp (· + ·))
    | .bigRatType => some (binaryBigRatOp (· + ·))
    | .vectorType => some fun u v => binaryVectorOp recur u "+" v

/-- The `-` operator (binary.go). -/
def subOp (recur : Value → String → Value → Except String Value) : binaryOp where
  whichType := binaryArithType
  fn := fun t =>
    match t with
    | .intType => some fun u v =>
        match u, v with
        | .int a, .int b => .ok (valueInt64 (wrap64 (a - b)))
        | _, _ => .error "type assertion failed"
    | .bigIntType => some (binaryBigIntOp (· - ·))
    | .bigRatType => some (binaryBigRatOp (· - ·))
    | .vectorType => some fun u v => binaryVectorOp recur u "-" v

/-- The `*` operator (binary.go). -/
def mulOp (recur : Value → String → Value → Except String Value) : binaryOp where
  whichType := binaryArithType
  fn := fun t =>
    match t with
    | .intType => some fun u v =>
        match u, v with
        | .int a, .int b => .ok (valueInt64 (wrap64 (a * b)))
        | _, _ => .error "type assertion failed"
    | .bigIntType => some (binaryBigIntOp (· * ·))
    | .bigRatType => some (binaryBigRatOp (· * ·))
    | .vectorType => some fun u v => binaryVectorOp recur u "*" v

/-- The `/` operator, exact rational division (binary.go). -/
def quoOp (recur : Value → String → Value → Except String Value) : binaryOp where
  whichType := rationalType
  fn := fun t =>
    match t with
    | .bigRatType => some quoRatFn
    | .vectorType => some fun u v => binaryVectorOp recur u "/" v
    | _ => none

/-- The `idiv` operator, Go-like truncating integer division (binary.go). -/
def idivOp (recur : Value → String → Value → Except String Value) : binaryOp where
  whichType := binaryArithType
  fn := fun t =>
    match t with
    | .intType => some fun u v =>
        match u, v with
        | .int a, .int b =>
            if b = 0 then .error "division by zero"
            else .ok (valueInt64 (wrap64 (Int.tdiv a b)))
        | _, _ => .error "type assertion failed"
    | .bigIntType => some fun u v =>
        match v with
        | .bigInt x =>
            if x = 0 then .error "division by zero"
            else binaryBigIntOp Int.tdiv u v
        | _ => .error "type assertion failed"
    | .bigRatType => none
    | .vectorType => some fun u v => binaryVectorOp recur u "idiv" v

/-- The `imod` operator, Go-like truncating integer modulo (binary.go). -/
def imodOp (recur : Value → String → Value → Except String Value) : binaryOp where
  whichType := binaryArithType
  fn := fun t =>
    match t with
    | .intType => some fun u v =>
        match u, v with
        | .int a, .int b =>
            if b = 0 then .error "modulo by zero"
            else .ok (valueInt64 (Int.tmod a b))
        | _, _ => .error "type assertion failed"
    | .bigIntType => some fun u v =>
        match v with
        | .bigInt x =>
            if x = 0 then .error "modulo by zero"
            else binaryBigIntOp Int.tmod u v
        | _ => .error "type assertion failed"
    | .bigRatType => none
    | .vectorType => some fun u v => binaryVectorOp recur u "imod" v

/-- The `div` operator, Euclidean integer division (binary.go). -/
def divOp (recur : Value → String → Value → Except String Value) : binaryOp where
  whichType := divType
  fn := fun t =>
    match t with
    | .bigIntType => some fun u v =>
        match v with
        | .bigInt x =>
            if x = 0 then .error "division by zero"
            else binaryBigIntOp Int.ediv u v
        | _ => .error "type assertion failed"
    | .vectorType => some fun u v => binaryVectorOp recur u "div" v
    | _ => none

/-- The `mod` operator, Euclidean integer modulus (binary.go). -/
def modOp (recur : Value → String → Value → Except String Value) : binaryOp where
  whichType := divType
  fn := fun t =>
    match t with
    | .bigIntType => some fun u v =>
        match v with
        | .bigInt x =>
            if x = 0 then .error "modulo by zero"
            else binaryBigIntOp Int.emod u v
        | _ => .error "type assertion failed"
    | .vectorType => some fun u v => binaryVectorOp recur u "mod" v
    | _ => none

/-- The `**` operator (binary.go). -/
def powOp (recur : Value → String → Value → Except String Value) : binaryOp where
  whichType := divType
  fn := fun t =>
    match t with
    | .bigIntType => some powBigIntFn
    | .bigRatType => some powBigRatValueFn
    | .vectorType => some fun u v => binaryVectorOp recur u "**" v
    | _ => none

/-- The `&` operator (binary.go). -/
def andOp (recur : Value → String → Value → Except String Value) : binaryOp where
  whichType := binaryArithType
  fn := fun t =>
    match t with
    | .intType => some fun u v =>
        match u, v with
        | .int a, .int b => .ok (valueInt64 (Int.land a b))
        | _, _ => .error "type assertion failed"
    | .bigIntType => some (binaryBigIntOp Int.land)
    | .vectorType => some fun u v => binaryVectorOp recur u "&" v
    | _ => none

/-- The `|` operator (binary.go). -/
def orOp (recur : Value → String → Value → Except String Value) : binaryOp where
  whichType := binaryArithType
  fn := fun t =>
    match t with
    | .intType => some fun u v =>
        match u, v with
        | .int a, .int b => .ok (valueInt64 (Int.lor a b))
        | _, _ => .error "type assertion failed"
    | .bigIntType => some (binaryBigIntOp Int.lor)
    | .vectorType => some fun u v => binaryVectorOp recur u "|" v
    | _ => none

/-- The `^` operator (binary.go). -/
def xorOp (recur : Value → String → Value → Except String Value) : binaryOp where
  whichType := binaryArithType
  fn := fun t =>
    match t with
    | .intType => some fun u v =>
        match u, v with
        | .int a, .int b => .ok (valueInt64 (Int.xor a b))
        | _, _ => .error "type assertion failed"
    | .bigIntType => some (binaryBigIntOp Int.xor)
    | .vectorType => some fun u v => binaryVectorOp recur u "^" v
    | _ => none

/-- The `<<` operator (binary.go). -/
def lshOp (recur : Value → String → Value → Except String Value) : binaryOp where
  whichType := divType
  fn := fun t =>
    match t with
    | .bigIntType => some fun u v =>
        match u with
        | .bigInt i => do
            let c ← shiftCount v
            .ok (shrink (.bigInt (i * 2 ^ c)))
        | _ => .error "type assertion failed"
    | .vectorType => some fun u v => binaryVectorOp recur u "<<" v
    | _ => none

/-- The `>>` operator (binary.go); big.Int Rsh is an arithmetic
(floor) shift. -/
def rshOp (recur : Value → String → Value → Except String Value) : binaryOp where
  whichType := divType
  fn := fun t =>
    match t with
    | .bigIntType => some fun u v =>
        match u with
        | .bigInt i => do
            let c ← shiftCount v
            .ok (shrink (.bigInt (Int.fdiv i (2 ^ c))))
        | _ => .error "type assertion failed"
    | .vectorType => some fun u v => binaryVectorOp recur u ">>" v
    | _ => none

/-- Comparison operator builder: all three scalar ranks return 0/1 via
toInt, vectors broadcast (binary.go's eq/ne/lt/le/gt/ge shape). -/
def cmpOp (recur : Value → String → Value → Except String Value)
    (name : String) (fi : ℤ → ℤ → Bool) (fr : ℚ → ℚ → Bool) : binaryOp where
  whichType := binaryArithType
  fn := fun t =>
    match t with
    | .intType => some fun u v =>
        match u, v with
        | .int a, .int b => .ok (toIntB (fi a b))
        | _, _ => .error "type assertion failed"
    | .bigIntType => some fun u v =>
        match u, v with
        | .bigInt a, .bigInt b => .ok (toIntB (fi a b))
        | _, _ => .error "type assertion failed"
    | .bigRatType => some fun u v =>
        match u, v with
        | .bigRat a, .bigRat b => .ok (toIntB (fr a b))
        | _, _ => .error "type assertion failed"
    | .vectorType => some fun u v => binaryVectorOp recur u name v

/-- The `min` operator: returns one of the two operands unchanged
(binary.go). -/
def minOp (recur : Value → String → Value → Except String Value) : binaryOp where
  whichType := binaryArithType
  fn := fun t =>
    match t with
    | .intType => some fun u v =>
        match u, v with
        | .int i, .int j => .ok (if i < j then u else v)
        | _, _ => .error "type assertion failed"
    | .bigIntType => some fun u v =>
        match u, v with
        | .bigInt i, .bigInt j => .ok (if i < j then u else v)
        | _, _ => .error "type assertion failed"
    | .bigRatType => some fun u v =>
        match u, v with
        | .bigRat i, .bigRat j => .ok (if i < j then u else v)
        | _, _ => .error "type assertion failed"
    | .vectorType => some fun u v => binaryVectorOp recur u "min" v

/-- The `max` operator (binary.go).  Note: the source's vectorType entry
dispatches the elementwise operation with the string "min". -/
def maxOp (recur : Value → String → Value → Except String Value) : binaryOp where
  whichType := binaryArithType
  fn := fun t =>
    match t with
    | .intType => some fun u v =>
        match u, v with
        | .int i, .int j => .ok (if i > j then u else v)
        | _, _ => .error "type assertion failed"
    | .bigIntType => some fun u v =>
        match u, v with
        | .bigInt i, .bigInt j => .ok (if i > j then u else v)
        | _, _ => .error "type assertion failed"
    | .bigRatType => some fun u v =>
        match u, v with
        | .bigRat i, .bigRat j => .ok (if i > j then u else v)
        | _, _ => .error "type assertion failed"
    | .vectorType => some fun u v => binaryVectorOp recur u "min" v

/-- The operator table keyed by symbol (binary.go's binaryOps map). -/
def binaryOps (recur : Value → String → Value → Except String Value) :
    String → Option binaryOp
  | "+" => some (addOp recur)
  | "-" => some (subOp recur)
  | "*" => some (mulOp recur)
  | "/" => some (quoOp recur)
  | "idiv" => some (idivOp recur)
  | "imod" => some (imodOp recur)
  | "div" => some (divOp recur)
  | "mod" => some (modOp recur)
  | "**" => some (powOp recur)
  | "&" => some (andOp recur)
  | "|" => some (orOp recur)
  | "^" => some (xorOp recur)
  | "<<" => some (lshOp recur)
  | ">>" => some (rshOp recur)
  | "==" => some (cmpOp recur "==" (fun a b => a = b) (fun a b => a = b))
  | "!=" => some (cmpOp recur "!=" (fun a b => a ≠ b) (fun a b => a ≠ b))
  | "<" => some (cmpOp recur "<" (fun a b => a < b) (fun a b => a < b))
  | "<=" => some (cmpOp recur "<=" (fun a b => a ≤ b) (fun a b => a ≤ b))
  | ">" => some (cmpOp recur ">" (fun a b => a > b) (fun a b => a > b))
  | ">=" => some (cmpOp recur ">=" (fun a b => a ≥ b) (fun a b => a ≥ b))
  | "min" => some (minOp recur)
  | "max" => some (maxOp recur)
  | _ => none

/-- Binary evaluates a binary operator.  Modelled from the spec (§4.2
steps 1-4): look up the operator (unknown symbol fails), compute the
target rank from its rule, convert both operands to that rank (either
operand being a Vector makes the rank Vector, dispatching to the
broadcasting entry), and invoke the table entry, a missing entry
failing; the per-rank implementations perform their own final shrink,
as in the provided sources.  The self-reference of the vector entries is
resolved with a recursion-depth fuel (Go uses a package-level init). -/
def Binary : ℕ → Value → String → Value → Except String Value
  | 0, _, _, _ => .error "recursion limit exceeded"
  | n + 1, u, opName, v =>
      match binaryOps (Binary n) opName with
      | none => .error ("binary " ++ opName ++ " not implemented")
      | some op => do
          let which := op.whichType (whichType u) (whichType v)
          let u' ← ToType u which
          let v' ← ToType v which
          match op.fn which with
          | none => .error ("binary " ++ opName ++ " not implemented on type")
          | some f => f u' v'

/-! ## Parser/Evaluator -/

/-- Token kinds produced by the external lexer (spec §3; parse.go
consumes them). -/
inductive TokType where
  | EOF
  | Error
  | Newline
  | Identifier
  | Operator
  | Number
  | Rational
  | LeftParen
  | RightParen
  | LeftBrack
  | RightBrack
  | Assign
deriving DecidableEq, Repr

/-- A lexer token: kind plus literal text. -/
structure Token where
  ttype : TokType
  text : String
deriving DecidableEq, Repr

/-- The zero token, used by parse.go as the empty-pushback marker
(scan.Token{Type: scan.EOF}) and returned by the lexer at end of
input. -/
def eofTok : Token := ⟨.EOF, ""⟩

/-- Parser state (parse.go's Parser): the external lexer modelled as
the list of tokens it has yet to produce, the one-token pushback
buffer, the most recent token read from the lexer, and the variable
environment (a last-write-wins association list). -/
structure PState where
  toks : List Token
  peekTok : Token
  curTok : Token
  vars : List (String × Value)

/-- Next (parse.go): return the pushback token if present, otherwise
read from the lexer and record curTok. -/
def pNext (p : PState) : Token × PState :=
  let tok := p.peekTok
  if tok.ttype ≠ .EOF then (tok, { p with peekTok := eofTok })
  else
    match p.toks with
    | [] => (eofTok, { p with curTok := eofTok })
    | t :: ts => (t, { p with toks := ts, curTok := t })

/-- Back (parse.go): store a token in the single pushback slot. -/
def pBack (p : PState) (tok : Token) : PState := { p with peekTok := tok }

/-- Peek (parse.go): return the pushback token if present, otherwise
fill the pushback slot from the lexer. -/
def pPeek (p : PState) : Token × PState :=
  let tok := p.peekTok
  if tok.ttype ≠ .EOF then (tok, p)
  else
    match p.toks with
    | [] => (eofTok, { p with peekTok := eofTok })
    | t :: ts => (t, { p with peekTok := t, toks := ts })

/-- Accumulating decimal reader over the characters of a literal. -/
def digitsVal : List Char → ℕ → Option ℕ
  | [], acc => some acc
  | c :: cs, acc =>
      if c.isDigit then digitsVal cs (acc * 10 + (c.toNat - '0'.toNat))
      else none

/-- Decimal value of a non-empty all-digit string. -/
def strNat (s : String) : Option ℕ :=
  match s.data with
  | [] => none
  | l => digitsVal l 0

/-- Modelled from the spec: the integer leaf parser (strconv-based
SetIntString is outside the provided sources).  A non-empty digit
string within the native range parses as a SmallInt. -/
def SetIntString (s : String) : Except String Value :=
  match strNat s with
  | some n => if (n : ℤ) ≤ maxInt64 then .ok (.int (n : ℤ)) else .error "value out of range"
  | none => .error "invalid integer"

/-- Modelled from the spec: the big-integer leaf parser (SetBigIntString
is outside the provided sources).  Any non-empty digit string parses
as a BigInt. -/
def SetBigIntString (s : String) : Except String Value :=
  match strNat s with
  | some n => .ok (.bigInt (n : ℤ))
  | none => .error "invalid big integer"

/-- Modelled from the spec: the decimal/scientific rational leaf parser
(SetBigRatString is outside the provided sources); decimal notation is
not needed by any claim, so every input is rejected here. -/
def SetBigRatString (_s : String) : Except String Value :=
  .error "invalid rational"

/-- The slash-free arm of ValueString (value.go lines 80-94): try the
three leaf parsers in order, shrinking big results. -/
def scalarLiteral (s : String) : Except String Value :=
  match SetIntString s with
  | .ok v => .ok v
  | .error _ =>
      match SetBigIntString s with
      | .ok b => .ok (shrink b)
      | .error _ =>
          match SetBigRatString s with
          | .ok r => .ok (shrink r)
          | .error e => .error e

/-- Splitting on a separator character (the model of Go's
strings.Split used by ValueString). -/
def splitOnChar (sep : Char) : List Char → List (List Char)
  | [] => [[]]
  | c :: cs =>
      let r := splitOnChar sep cs
      if c = sep then [] :: r
      else
        match r with
        | [] => [[c]]
        | h :: t => (c :: h) :: t

/-- ValueString parses a literal (value.go).  An `a/b` rational literal
parses both halves (which cannot themselves contain a slash, so the
recursive calls take the scalar arm), uses the fast two-int constructor
when both are SmallInt, and otherwise promotes to BigRat and divides;
a zero denominator panics. -/
def ValueString (s : String) : Except String Value :=
  if s.data.contains '/' then
    match splitOnChar '/' s.data with
    | [a, b] => do
        let num ← scalarLiteral (String.mk a)
        let den ← scalarLiteral (String.mk b)
        if whichType num = .intType ∧ whichType den = .intType then
          match num, den with
          | .int x, .int y =>
              if y = 0 then .error "zero denominator in rational"
              else .ok (shrink (.bigRat (Rat.divInt x y)))
          | _, _ => .error "type assertion failed"
        else do
          let rnum ← ToType num .bigRatType
          let rden ← ToType den .bigRatType
          match rden with
          | .bigRat d =>
              if d = 0 then .error "zero denominator in rational"
              else binaryBigRatOp (fun a b => a / b) rnum rden
          | _ => .error "type assertion failed"
    | _ => .error "bad rat"
  else scalarLiteral s

/-- Number turns a token into a singleton numeric Value (parse.go);
a parse failure is reported through errorf. -/
def pNumber (tok : Token) : Except String Value := ValueString tok.text

/-- The collection loop of NumberOrVector (parse.go): while the peeked
token is a number or rational, consume it, parse it and append.  The
fuel only bounds the recursion; `NumberOrVector` supplies enough for
the whole remaining token stream. -/
def numVecLoop : ℕ → PState → List Value → TokType → Except String (List Value × PState)
  | 0, _, _, _ => .error "recursion limit exceeded"
  | n + 1, p, v, typ =>
      if typ = .Number ∨ typ = .Rational then do
        let (t, p1) := pNext p
        let x ← pNumber t
        let (pk, p2) := pPeek p1
        numVecLoop n p2 (v ++ [x]) pk.ttype
      else .ok (v, p)

/-- NumberOrVector turns the token and what follows into a numeric
Value, possibly a vector (parse.go). -/
def NumberOrVector (fuel : ℕ) (p : PState) (tok : Token) : Except String (Value × PState) := do
  let x ← pNumber tok
  let (pk, p1) := pPeek p
  if pk.ttype ≠ .Number ∧ pk.ttype ≠ .Rational then .ok (x, p1)
  else do
    let (v, p2) ← numVecLoop fuel p1 [x] pk.ttype
    .ok (.vector v, p2)

/-- Expression trees (parse.go's Unary and Binary nodes; a Value is
itself an Expr). -/
inductive PExpr where
  | val : Value → PExpr
  | unary : String → PExpr → PExpr
  | binary : String → PExpr → PExpr → PExpr

mutual

/-- Expr (parse.go): an operand, optionally followed by a binary
operator and a right-associative rest-expression. -/
def pExpr : ℕ → PState → Token → Except String (PExpr × PState)
  | 0, _, _ => .error "recursion limit exceeded"
  | fuel + 1, p, tok => do
      let (e, p1) ← pOperand fuel p tok
      let (pk, p2) := pPeek p1
      match pk.ttype with
      | .Newline | .EOF | .RightParen | .RightBrack => .ok (e, p2)
      | .Operator =>
          let (opTok, p3) := pNext p2
          let (t4, p4) := pNext p3
          let (rhs, p5) ← pExpr fuel p4 t4
          .ok (.binary opTok.text e rhs, p5)
      | _ => .error "unexpected token after expression"

/-- Operand (parse.go): unary operator, parenthesized expression,
number/vector literal, or variable, the last three with optional
indexing.  An undefined variable fails immediately. -/
def pOperand : ℕ → PState → Token → Except String (PExpr × PState)
  | 0, _, _ => .error "recursion limit exceeded"
  | fuel + 1, p, tok =>
      match tok.ttype with
      | .Operator => do
          let (t1, p1) := pNext p
          let (rhs, p2) ← pExpr fuel p1 t1
          .ok (.unary tok.text rhs, p2)
      | .LeftParen => do
          let (t1, p1) := pNext p
          let (e, p2) ← pExpr fuel p1 t1
          let (t3, p3) := pNext p2
          if t3.ttype ≠ .RightParen then .error "expected right paren"
          else pIndex fuel p3 e
      | .Number | .Rational => do
          let (x, p1) ← NumberOrVector (p.toks.length + 2) p tok
          .ok (.val x, p1)
      | .Identifier =>
          match p.vars.lookup tok.text with
          | none => .error (tok.text ++ " undefined")
          | some v => pIndex fuel p (.val v)
      | _ => .error "unexpected token"

/-- Indexing (parse.go): while the peeked token is a left bracket, wrap
the expression in an indexing binary node. -/
def pIndex : ℕ → PState → PExpr → Except String (PExpr × PState)
  | 0, _, _ => .error "recursion limit exceeded"
  | fuel + 1, p, e =>
      let (pk, p1) := pPeek p
      if pk.ttype = .LeftBrack then do
        let (_, p2) := pNext p1
        let (t3, p3) := pNext p2
        let (ix, p4) ← pExpr fuel p3 t3
        let (t5, p5) := pNext p4
        if t5.ttype ≠ .RightBrack then .error "expected right bracket"
        else pIndex fuel p5 (.binary "[]" e ix)
      else .ok (e, p1)
end

/-- Modelled from the spec: the unary operator table is outside the
provided sources; only scalar negation (§4.2's example) is modelled,
and nothing proved here depends on it. -/
def UnaryOp (op : String) (v : Value) : Except String Value :=
  if op = "-" then
    match v with
    | .int x => .ok (valueInt64 (wrap64 (-x)))
    | .bigInt x => .ok (shrink (.bigInt (-x)))
    | .bigRat q => .ok (shrink (.bigRat (-q)))
    | .vector _ => .error "unary on vector not modelled"
  else .error ("unary " ++ op ++ " not implemented")

/-- Eval of an expression node (parse.go): a Value evaluates to itself,
a Unary node applies the unary table to its evaluated operand, a Binary
node evaluates left then right and dispatches. -/
def evalExpr (fuel : ℕ) : PExpr → Except String Value
  | .val v => .ok v
  | .unary op e => do
      let r ← evalExpr fuel e
      UnaryOp op r
  | .binary op l r => do
      let lv ← evalExpr fuel l
      let rv ← evalExpr fuel r
      Binary fuel lv op rv

/-- Line (parse.go): EOF stops the session; a lex error aborts the
line; `)` runs the special-command handler (outside the provided
sources, modelled as consuming nothing and yielding no value); a
newline yields nothing; `name := expr` evaluates expr, binds it to
name and to `_`, and yields no displayable value; a bare expression
evaluates, binds `_`, and yields the result.  The trailing token of an
expression line must be a newline or EOF. -/
def pLine (fuel : ℕ) (p0 : PState) : Except String (Option Value × Bool × PState) :=
  let (tok, p) := pNext p0
  match tok.ttype with
  | .EOF => .ok (none, false, p)
  | .Error => .error "lex error"
  | .RightParen => .ok (none, true, p)
  | .Newline => .ok (none, true, p)
  | _ => do
      let (varName, isAssignment, tok2, p2) :=
        if tok.ttype = .Identifier then
          let (next, p') := pPeek p
          if next.ttype = .Assign then
            let (_, p'') := pNext p'
            let (t3, p3) := pNext p''
            (tok.text, true, t3, p3)
          else ("", false, tok, p')
        else ("", false, tok, p)
      let (x, p4) ← pExpr fuel p2 tok2
      let (tok5, p5) := pNext p4
      if tok5.ttype ≠ .Newline ∧ tok5.ttype ≠ .EOF then .error "unexpected token after expression"
      else do
        let expr ← evalExpr fuel x
        let p6 := { p5 with vars := ("_", expr) :: p5.vars }
        let p7 := if varName ≠ "" then { p6 with vars := (varName, expr) :: p6.vars } else p6
        if isAssignment then .ok (none, true, p7)
        else .ok (some expr, true, p7)

/-! ## Helper lemmas -/

/-- A successful elementwise pass produces exactly one output per input,
each the successful image of its input. -/
theorem mapE_ok {α : Type} {f : α → Except String Value} :
    ∀ {l : List α} {r : List Value}, mapE f l = .ok r →
      r.length = l.length ∧
      ∀ (k : ℕ) (a : α), l[k]? = some a → ∃ b, r[k]? = some b ∧ f a = .ok b := by
  intro l
  induction l with
  | nil =>
      intro r h
      simp only [mapE] at h
      cases h
      exact ⟨rfl, by intro k a hk; simp at hk⟩
  | cons a as ih =>
      intro r h
      simp only [mapE] at h
      cases hfa : f a with
      | error e =>
          rw [hfa] at h
          simp only [Bind.bind, Except.bind] at h
          exact Except.noConfusion h
      | ok b =>
          rw [hfa] at h
          cases hm : mapE f as with
          | error e =>
              rw [hm] at h
              simp only [Bind.bind, Except.bind] at h
              exact Except.noConfusion h
          | ok bs =>
              rw [hm] at h
              simp only [Bind.bind, Except.bind] at h
              cases h
              obtain ⟨hl, hg⟩ := ih hm
              refine ⟨by simp [hl], ?_⟩
              intro k x hk
              cases k with
              | zero =>
                  simp only [List.getElem?_cons_zero, Option.some.injEq] at hk
                  subst hk
                  exact ⟨b, by simp, hfa⟩
              | succ k =>
                  simp only [List.getElem?_cons_succ] at hk ⊢
                  exact hg k x hk

/-- shrink only changes representation, not numeric content. -/
theorem toRat_shrink (v : Value) : toRat (shrink v) = toRat v := by
  cases v with
  | int x => rfl
  | bigInt x =>
      simp only [shrink]
      split <;> rfl
  | bigRat q =>
      simp only [shrink]
      by_cases h : q.den = 1
      · rw [if_pos h]
        have hq : (q.num : ℚ) = q := Rat.coe_int_num_of_den_eq_one h
        split <;> simp [toRat, hq]
      · rw [if_neg h]
  | vector l => rfl

/-- shrink leaves a scalar a scalar and a vector a vector. -/
theorem whichType_shrink_ne_vector (v : Value) :
    whichType v ≠ .vectorType → whichType (shrink v) ≠ .vectorType := by
  cases v with
  | int x => exact fun h => h
  | bigInt x =>
      intro _
      simp only [shrink]
      split <;> simp [whichType]
  | bigRat q =>
      intro _
      simp only [shrink]
      split
      · split <;> simp [whichType]
      · simp [whichType]
  | vector l => exact fun h => h

/-! ## Claims -/

/-- C1 counterexample: the claim "idiv and imod select result rank
max(BigInt, rank(a), rank(b)) and never evaluate at SmallInt rank" is
false at two SmallInt operands: idiv's type-selection rule yields
SmallInt there, not the BigInt that divType would give; both idiv and
imod carry SmallInt-rank implementations, and `7 idiv 2` actually
evaluates at SmallInt rank, producing the SmallInt 3. -/
theorem C1_idiv_rank_counterexample :
    (idivOp (Binary 0)).whichType valueType.intType valueType.intType ≠
      divType valueType.intType valueType.intType ∧
    (imodOp (Binary 0)).whichType valueType.intType valueType.intType ≠
      divType valueType.intType valueType.intType ∧
    ((idivOp (Binary 0)).fn valueType.intType).isSome = true ∧
    ((imodOp (Binary 0)).fn valueType.intType).isSome = true ∧
    Binary 1 (Value.int 7) "idiv" (Value.int 2) = Except.ok (Value.int 3) ∧
    whichType (Value.int 3) = valueType.intType :=
  ⟨by decide, by decide, rfl, rfl, rfl, rfl⟩

/-- C1 (amended): idiv and imod select result rank with plain arithmetic
promotion max(rank(a), rank(b)) and provide SmallInt implementations, so
two SmallInt operands are evaluated at SmallInt rank (7 idiv 2 = 3 and
-7 imod 2 = -1 run natively); it is the Euclidean div/mod and power that
select max(BigInt, rank(a), rank(b)). -/
theorem C1_idiv_imod_arith_rank (recur : Value → String → Value → Except String Value)
    (t1 t2 : valueType) :
    (idivOp recur).whichType t1 t2 = binaryArithType t1 t2 ∧
    (imodOp recur).whichType t1 t2 = binaryArithType t1 t2 ∧
    ((idivOp recur).fn valueType.intType).isSome = true ∧
    ((imodOp recur).fn valueType.intType).isSome = true ∧
    (divOp recur).whichType t1 t2 = divType t1 t2 ∧
    (modOp recur).whichType t1 t2 = divType t1 t2 ∧
    (powOp recur).whichType t1 t2 = divType t1 t2 ∧
    Binary 1 (Value.int 7) "idiv" (Value.int 2) = Except.ok (Value.int 3) ∧
    Binary 1 (Value.int (-7)) "imod" (Value.int 2) = Except.ok (Value.int (-1)) :=
  ⟨rfl, rfl, rfl, rfl, rfl, rfl, rfl, rfl, rfl⟩

/-- C2: the binary `max` on two equal-length vectors does not apply the
scalar `max` elementwise — its vector entry dispatches the string
"min", so `(1 3) max (2 2)` evaluates to `(1 2)` (the elementwise
minimum) while the scalar `max` of the 0th elements 1 and 2 is 2. -/
theorem C2_vector_max_is_elementwise_min :
    Binary 3 (Value.vector [Value.int 1, Value.int 3]) "max"
        (Value.vector [Value.int 2, Value.int 2]) =
      Except.ok (Value.vector [Value.int 1, Value.int 2]) ∧
    Binary 3 (Value.int 1) "max" (Value.int 2) = Except.ok (Value.int 2) ∧
    Binary 3 (Value.int 3) "max" (Value.int 2) = Except.ok (Value.int 3) ∧
    Value.int 1 ≠ Value.int 2 := by
  refine ⟨rfl, rfl, rfl, fun h => ?_⟩
  injection h with h
  exact absurd h (by decide)

/-- C3: raising the BigRat base 2/3 to the integral power 2 leaves the
base operand holding 4/9 after the call (the numerator and denominator
of the result are computed in place inside the base through the
big.Rat.Num/Denom pointers), so evaluation does not leave the operand
unchanged. -/
theorem C3_pow_mutates_bigrat_base :
    powBigRatFn (mkRat 2 3) (mkRat 2 1) =
      Except.ok (Value.bigRat (mkRat 4 9), mkRat 4 9) ∧
    mkRat 4 9 ≠ mkRat 2 3 :=
  ⟨rfl, by decide⟩

/-- C4: `2 ** 3/2` dispatches at BigRat rank (the base 2 promoted to
the BigRat 2/1, the exponent's numerator 3 used as the power) and
returns the BigRat 8/1: a Value of BigRat rank whose denominator is 1,
which shrink would reduce to the SmallInt 8 — the pow BigRat branch
returns its result without shrinking it. -/
theorem C4_pow_bigrat_result_not_shrunk :
    Binary 2 (Value.int 2) "**" (Value.bigRat (mkRat 3 2)) =
      Except.ok (Value.bigRat (mkRat 8 1)) ∧
    whichType (Value.bigRat (mkRat 8 1)) = valueType.bigRatType ∧
    (mkRat 8 1).den = 1 ∧
    shrink (Value.bigRat (mkRat 8 1)) = Value.int 8 ∧
    Value.bigRat (mkRat 8 1) ≠ Value.int 8 :=
  ⟨rfl, rfl, rfl, rfl, fun h => Value.noConfusion h⟩

/-- A mapped vector result unwraps to the underlying element list. -/
theorem exceptMap_vector_ok {m : Except String (List Value)} {w : List Value}
    (h : (Value.vector <$> m) = .ok (.vector w)) : m = .ok w := by
  cases m with
  | error e => simp [Functor.map, Except.map] at h
  | ok r =>
      simp only [Functor.map, Except.map, Except.ok.injEq, Value.vector.injEq] at h
      rw [h]

/-- C5: true division `/` selects rank max(BigRational, rank(a),
rank(b)) — its rule promotes every scalar pair to BigRational and it
has no SmallInt or BigInt table entry — and at BigRational rank it
fails with the division-by-zero error exactly when the divisor is zero,
otherwise producing the exact rational quotient (in shrunk
representation). -/
theorem C5_quo_rational (t1 t2 : valueType) (u v : ℚ) :
    (rationalType t1 t2).rank =
      max valueType.bigRatType.rank (max t1.rank t2.rank) ∧
    (quoOp (Binary 0)).fn valueType.intType = none ∧
    (quoOp (Binary 0)).fn valueType.bigIntType = none ∧
    (v = 0 → quoRatFn (Value.bigRat u) (Value.bigRat v) =
      Except.error "division by zero") ∧
    (v ≠ 0 →
      quoRatFn (Value.bigRat u) (Value.bigRat v) =
        Except.ok (shrink (Value.bigRat (u / v))) ∧
      toRat (shrink (Value.bigRat (u / v))) = some (u / v)) := by
  refine ⟨?_, rfl, rfl, ?_, ?_⟩
  · cases t1 <;> cases t2 <;> rfl
  · intro h
    subst h
    rfl
  · intro h
    constructor
    · simp [quoRatFn, h, binaryBigRatOp]
    · rw [toRat_shrink]
      rfl

/-- C5 witness: (1/3) / (1/6) is the exact quotient 2 (shrunk to a
SmallInt), and a zero divisor yields the division-by-zero error. -/
theorem C5_quo_rational_witness :
    quoRatFn (Value.bigRat (mkRat 1 3)) (Value.bigRat (mkRat 1 6)) =
      Except.ok (Value.int 2) ∧
    quoRatFn (Value.bigRat (mkRat 1 3)) (Value.bigRat 0) =
      Except.error "division by zero" := by
  constructor
  · have h := ((C5_quo_rational valueType.intType valueType.intType
      (mkRat 1 3) (mkRat 1 6)).2.2.2.2 (by decide)).1
    rw [h]
    have hq : (mkRat 1 3 : ℚ) / mkRat 1 6 = 2 := by
      rw [Rat.mkRat_eq_divInt, Rat.mkRat_eq_divInt, Rat.divInt_eq_div, Rat.divInt_eq_div]
      norm_num
    rw [hq]
    rfl
  · exact (C5_quo_rational valueType.intType valueType.intType
      (mkRat 1 3) 0).2.2.2.1 rfl

/-- C6: for any elementwise operator, a length-1 left vector broadcasts
its single element against every element of the right vector (result
length = len(v)); symmetrically for a length-1 right vector; and any
other pair of unequal lengths fails with the length-mismatch error
carrying both lengths — an ok result is never produced there, so no
partial or truncated vector can escape. -/
theorem C6_vector_broadcast (recur : Value → String → Value → Except String Value)
    (u v w : List Value) (op : String) :
    (u.length = 1 →
      binaryVectorOp recur (.vector u) op (.vector v) = .ok (.vector w) →
      w.length = v.length ∧
        ∀ (k : ℕ) (a : Value), v[k]? = some a →
          ∃ b, w[k]? = some b ∧ recur (u.headD zero) op a = .ok b) ∧
    (u.length ≠ 1 → v.length = 1 →
      binaryVectorOp recur (.vector u) op (.vector v) = .ok (.vector w) →
      w.length = u.length ∧
        ∀ (k : ℕ) (a : Value), u[k]? = some a →
          ∃ b, w[k]? = some b ∧ recur a op (v.headD zero) = .ok b) ∧
    (u.length ≠ 1 → v.length ≠ 1 → u.length ≠ v.length →
      binaryVectorOp recur (.vector u) op (.vector v) =
        .error ("length mismatch: " ++ toString u.length ++ " " ++ toString v.length)) := by
  refine ⟨?_, ?_, ?_⟩
  · intro h1 hr
    simp only [binaryVectorOp, if_pos h1] at hr
    exact mapE_ok (exceptMap_vector_ok hr)
  · intro h1 h2 hr
    simp only [binaryVectorOp, if_neg h1, if_pos h2] at hr
    exact mapE_ok (exceptMap_vector_ok hr)
  · intro h1 h2 h3
    simp only [binaryVectorOp, if_neg h1, if_neg h2, if_pos h3]

/-- C6 witness: the length-1 vector (1) broadcast with + over (2 3)
gives (3 4) elementwise, and the lengths 2 and 3 fail with the
length-mismatch error naming both. -/
theorem C6_vector_broadcast_witness :
    ([Value.int 3, Value.int 4].length = [Value.int 2, Value.int 3].length ∧
      ∀ (k : ℕ) (a : Value), [Value.int 2, Value.int 3][k]? = some a →
        ∃ b, [Value.int 3, Value.int 4][k]? = some b ∧
          Binary 1 ([Value.int 1].headD zero) "+" a = Except.ok b) ∧
    binaryVectorOp (Binary 1) (Value.vector [Value.int 1, Value.int 2]) "+"
        (Value.vector [Value.int 1, Value.int 2, Value.int 3]) =
      Except.error ("length mismatch: " ++
        toString [Value.int 1, Value.int 2].length ++ " " ++
        toString [Value.int 1, Value.int 2, Value.int 3].length) := by
  constructor
  · exact (C6_vector_broadcast (Binary 1) [Value.int 1] [Value.int 2, Value.int 3]
      [Value.int 3, Value.int 4] "+").1 rfl rfl
  · exact (C6_vector_broadcast (Binary 1) [Value.int 1, Value.int 2]
      [Value.int 1, Value.int 2, Value.int 3] [] "+").2.2
      (by decide) (by decide) (by decide)

/-- The normalization applied by SetFrac leaves the componentwise powers
of a reduced rational untouched. -/
theorem mkRat_pow_num_den (u : ℚ) (n : ℕ) :
    (mkRat (u.num ^ n) (u.den ^ n)).num = u.num ^ n ∧
    (mkRat (u.num ^ n) (u.den ^ n)).den = u.den ^ n := by
  have hnz : u.den ^ n ≠ 0 := pow_ne_zero n u.den_nz
  have hcop : (u.num ^ n).natAbs.Coprime (u.den ^ n) := by
    rw [Int.natAbs_pow]
    exact Nat.Coprime.pow n n u.reduced
  rw [← Rat.mk_eq_mkRat (u.num ^ n) (u.den ^ n) hnz hcop]
  exact ⟨rfl, rfl⟩

/-- C7: pow at BigInt rank returns one on a zero exponent, fails with
the negative-exponent error on a negative exponent, and otherwise
returns the (shrunk) integer power; at BigRat rank a zero integral
exponent returns one, and a positive integral exponent n returns the
rational whose numerator is num(u)^n and whose denominator is
den(u)^n. -/
theorem C7_pow_semantics (a e : ℤ) (u : ℚ) (n : ℕ) :
    powBigIntFn (Value.bigInt a) (Value.bigInt 0) = Except.ok one ∧
    (e < 0 → powBigIntFn (Value.bigInt a) (Value.bigInt e) =
      Except.error "negative exponent not implemented") ∧
    (0 < e →
      powBigIntFn (Value.bigInt a) (Value.bigInt e) =
        Except.ok (shrink (Value.bigInt (a ^ e.toNat))) ∧
      toRat (shrink (Value.bigInt (a ^ e.toNat))) = some ((a ^ e.toNat : ℤ) : ℚ)) ∧
    powBigRatFn u 0 = Except.ok (one, u) ∧
    (0 < n →
      ∃ q : ℚ, powBigRatFn u ((n : ℕ) : ℚ) = Except.ok (Value.bigRat q, q) ∧
        q.num = u.num ^ n ∧ q.den = u.den ^ n) := by
  refine ⟨rfl, ?_, ?_, rfl, ?_⟩
  · intro h
    simp only [powBigIntFn]
    rw [if_neg (by omega), if_pos h]
  · intro h
    constructor
    · simp only [powBigIntFn]
      rw [if_neg (by omega), if_neg (by omega)]
      rfl
    · rw [toRat_shrink]
      rfl
  · intro h
    have hne : ((n : ℕ) : ℚ) ≠ 0 := by
      exact_mod_cast Nat.pos_iff_ne_zero.mp h
    have hnneg : ¬ ((n : ℕ) : ℚ) < 0 := by
      simp
    refine ⟨mkRat (u.num ^ n) (u.den ^ n), ?_, (mkRat_pow_num_den u n).1,
      (mkRat_pow_num_den u n).2⟩
    simp only [powBigRatFn]
    rw [if_neg hne, if_neg hnneg]
    have hexp : ((n : ℕ) : ℚ).num.toNat = n := by
      rw [Rat.num_natCast, Int.toNat_natCast]
    have hden : ((u.den : ℤ)) ^ n = ((u.den ^ n : ℕ) : ℤ) := by
      push_cast
      ring
    rw [hexp, hden, Rat.divInt_ofNat]

/-- C7 witness: 2 ** (-1), 2 ** 0 and 2 ** 3 at BigInt rank, and
(2/3) ** 2 at BigRat rank computed componentwise as 4/9. -/
theorem C7_pow_semantics_witness :
    powBigIntFn (Value.bigInt 2) (Value.bigInt (-1)) =
      Except.error "negative exponent not implemented" ∧
    powBigIntFn (Value.bigInt 2) (Value.bigInt 3) =
      Except.ok (shrink (Value.bigInt ((2 : ℤ) ^ (3 : ℤ).toNat))) ∧
    (∃ q : ℚ, powBigRatFn (mkRat 2 3) ((2 : ℕ) : ℚ) = Except.ok (Value.bigRat q, q) ∧
      q.num = (mkRat 2 3).num ^ 2 ∧ q.den = (mkRat 2 3).den ^ 2) :=
  ⟨(C7_pow_semantics 2 (-1) (mkRat 2 3) 2).2.1 (by decide),
   ((C7_pow_semantics 2 3 (mkRat 2 3) 2).2.2.1 (by decide)).1,
   (C7_pow_semantics 2 3 (mkRat 2 3) 2).2.2.2.2 (by decide)⟩

/-- C9: pushing back a non-EOF token makes the next Next return exactly
that token while the lexer stream is left untouched; pushing back an
EOF-typed token is indistinguishable from an empty pushback slot, so the
next Next reads a fresh token from the lexer instead of returning it. -/
theorem C9_back_next (p : PState) (t : Token) :
    (t.ttype ≠ .EOF →
      pNext (pBack p t) = (t, { p with peekTok := eofTok }) ∧
      (pNext (pBack p t)).2.toks = p.toks) ∧
    (t.ttype = .EOF →
      pNext (pBack p t) = pNext { p with peekTok := t } ∧
      ∀ (u : Token) (us : List Token), p.toks = u :: us →
        pNext (pBack p t) =
          (u, { p with peekTok := t, toks := us, curTok := u })) := by
  constructor
  · intro h
    cases p
    constructor
    · simp [pNext, pBack, h]
    · simp [pNext, pBack, h]
  · intro h
    constructor
    · rfl
    · intro u us htoks
      cases p
      simp only at htoks
      simp [pNext, pBack, h, htoks]

/-- C9 witness: Back(+) then Next returns + and leaves the stream with
its one number token; Back of an EOF-typed token is discarded and Next
reads the number token from the lexer. -/
theorem C9_back_next_witness :
    pNext (pBack ⟨[⟨.Number, "5"⟩], eofTok, eofTok, []⟩ ⟨.Operator, "+"⟩) =
      (⟨.Operator, "+"⟩, ⟨[⟨.Number, "5"⟩], eofTok, eofTok, []⟩) ∧
    pNext (pBack ⟨[⟨.Number, "5"⟩], eofTok, eofTok, []⟩ ⟨.EOF, "ignored"⟩) =
      (⟨.Number, "5"⟩, ⟨[], ⟨.EOF, "ignored"⟩, ⟨.Number, "5"⟩, []⟩) := by
  constructor
  · exact ((C9_back_next ⟨[⟨.Number, "5"⟩], eofTok, eofTok, []⟩
      ⟨.Operator, "+"⟩).1 (by decide)).1
  · exact ((C9_back_next ⟨[⟨.Number, "5"⟩], eofTok, eofTok, []⟩
      ⟨.EOF, "ignored"⟩).2 rfl).2 ⟨.Number, "5"⟩ [] rfl

/-- The NumberOrVector collection loop: starting with the peeked
number/rational token t buffered, a run of further number/rational
tokens followed by something else is consumed entirely, appending the
parsed values to the accumulator in input order. -/
theorem numVecLoop_run :
    ∀ (nums rest : List Token) (fuel : ℕ) (toks0 : List Token) (cur : Token)
      (vars0 : List (String × Value)) (acc : List Value)
      (t : Token) (x : Value) (xs : List Value),
      (t.ttype = .Number ∨ t.ttype = .Rational) →
      (∀ tk ∈ nums, tk.ttype = .Number ∨ tk.ttype = .Rational) →
      toks0 = nums ++ rest →
      ((rest.headD eofTok).ttype ≠ .Number ∧ (rest.headD eofTok).ttype ≠ .Rational) →
      pNumber t = .ok x →
      mapE pNumber nums = .ok xs →
      nums.length + 2 ≤ fuel →
      ∃ p', numVecLoop fuel ⟨toks0, t, cur, vars0⟩ acc t.ttype =
        .ok (acc ++ x :: xs, p') := by
  intro nums
  induction nums with
  | nil =>
      intro rest fuel toks0 cur vars0 acc t x xs ht _ htoks hrest hx hxs hfuel
      simp only [mapE] at hxs
      cases hxs
      simp only [List.nil_append] at htoks
      subst htoks
      match fuel, hfuel with
      | g + 2, _ =>
        have htne : t.ttype ≠ TokType.EOF := by
          rcases ht with h | h <;> simp [h]
        have hcond : t.ttype = TokType.Number ∨ t.ttype = TokType.Rational := ht
        simp only [numVecLoop, if_pos hcond, pNext, if_pos htne, hx,
          Bind.bind, Except.bind, pPeek]
        cases toks0 with
        | nil =>
            simp only [if_neg (by simp [eofTok] : ¬ eofTok.ttype ≠ TokType.EOF)]
            simp only [numVecLoop, eofTok]
            rw [if_neg (by simp)]
            exact ⟨_, rfl⟩
        | cons r rs =>
            simp only [numVecLoop]
            rw [if_neg (by rintro (h | h); exacts [hrest.1 h, hrest.2 h])]
            exact ⟨_, rfl⟩
  | cons nt ns ih =>
      intro rest fuel toks0 cur vars0 acc t x xs ht hnums htoks hrest hx hxs hfuel
      simp only [mapE] at hxs
      cases hnt : pNumber nt with
      | error e =>
          rw [hnt] at hxs
          simp only [Bind.bind, Except.bind] at hxs
          exact Except.noConfusion hxs
      | ok x1 =>
          rw [hnt] at hxs
          cases hns : mapE pNumber ns with
          | error e =>
              rw [hns] at hxs
              simp only [Bind.bind, Except.bind] at hxs
              exact Except.noConfusion hxs
          | ok xs1 =>
              rw [hns] at hxs
              simp only [Bind.bind, Except.bind] at hxs
              cases hxs
              subst htoks
              match fuel, hfuel with
              | f + 1, hf =>
                have htne : t.ttype ≠ TokType.EOF := by
                  rcases ht with h | h <;> simp [h]
                have hntt : nt.ttype = TokType.Number ∨ nt.ttype = TokType.Rational :=
                  hnums nt (by simp)
                have hntne : nt.ttype ≠ TokType.EOF := by
                  rcases hntt with h | h <;> simp [h]
                simp only [numVecLoop, if_pos ht, pNext, if_pos htne, hx,
                  Bind.bind, Except.bind, pPeek, List.cons_append]
                simp only [if_neg (by simp [eofTok] : ¬ eofTok.ttype ≠ TokType.EOF)]
                obtain ⟨p', hp'⟩ := ih rest f (ns ++ rest) cur vars0 (acc ++ [x])
                  nt x1 xs1 hntt (fun tk htk => hnums tk (by simp [htk]))
                  rfl hrest hnt hns (by simp at hf ⊢; omega)
                refine ⟨p', ?_⟩
                rw [hp']
                simp

/-- The slash-free literal arm only produces scalars. -/
theorem scalarLiteral_shape {s : String} {v : Value}
    (h : scalarLiteral s = .ok v) : whichType v ≠ .vectorType := by
  unfold scalarLiteral at h
  cases hi : SetIntString s with
  | ok w =>
      rw [hi] at h
      cases h
      unfold SetIntString at hi
      cases hn : strNat s with
      | none => rw [hn] at hi; exact Except.noConfusion hi
      | some n =>
          rw [hn] at hi
          have hi' : (if (n : ℤ) ≤ maxInt64 then Except.ok (Value.int (n : ℤ))
              else Except.error "value out of range") = Except.ok v := hi
          by_cases hle : (n : ℤ) ≤ maxInt64
          · rw [if_pos hle] at hi'
            cases hi'
            simp [whichType]
          · rw [if_neg hle] at hi'
            exact Except.noConfusion hi'
  | error e1 =>
      rw [hi] at h
      cases hb : SetBigIntString s with
      | ok b =>
          rw [hb] at h
          cases h
          unfold SetBigIntString at hb
          cases hn : strNat s with
          | none => rw [hn] at hb; exact Except.noConfusion hb
          | some n =>
              rw [hn] at hb
              cases hb
              exact whichType_shrink_ne_vector _ (by simp [whichType])
      | error e2 =>
          rw [hb] at h
          unfold SetBigRatString at h
          exact Except.noConfusion h

/-- Inversion for a successful Except bind. -/
theorem except_bind_ok {α β : Type} {m : Except String α} {f : α → Except String β} {r : β}
    (h : (m >>= f) = .ok r) : ∃ a, m = .ok a ∧ f a = .ok r := by
  cases m with
  | error e => exact Except.noConfusion h
  | ok a => exact ⟨a, rfl, h⟩

/-- A guarded shrink-of-rational result is never a Vector. -/
theorem ite_ok_not_vector {c : Prop} [Decidable c] {e : String} {q : ℚ} {v : Value}
    (h : (if c then Except.error e else Except.ok (shrink (Value.bigRat q))) =
      Except.ok v) : whichType v ≠ .vectorType := by
  by_cases hc : c
  · rw [if_pos hc] at h
    exact Except.noConfusion h
  · rw [if_neg hc] at h
    cases h
    exact whichType_shrink_ne_vector _ (by simp [whichType])

/-- ValueString only produces scalars: a literal never parses to a
Vector. -/
theorem ValueString_not_vector {s : String} {v : Value}
    (h : ValueString s = .ok v) : whichType v ≠ .vectorType := by
  unfold ValueString at h
  split at h
  · split at h
    · rename_i a b hsp
      obtain ⟨num, ha, h⟩ := except_bind_ok h
      obtain ⟨den, hbb, h⟩ := except_bind_ok h
      cases num <;> cases den <;>
        first
          | exact Except.noConfusion h
          | exact ite_ok_not_vector h
    · exact Except.noConfusion h
  · exact scalarLiteral_shape h

/-- C10: with an empty pushback slot, a number/rational token whose
following token is not a number or rational parses to exactly the
scalar Value of that token (never a one-element Vector); a token
followed by a further run of number/rational tokens and then something
else parses to a Vector of the parsed tokens in input order. -/
theorem C10_number_or_vector (fuel : ℕ) (toks0 rest : List Token)
    (cur : Token) (vars0 : List (String × Value)) (tok nt : Token)
    (ns : List Token) (x : Value) (xs : List Value) :
    (pNumber tok = .ok x →
      ((toks0.headD eofTok).ttype ≠ .Number ∧ (toks0.headD eofTok).ttype ≠ .Rational) →
      (∃ p1, NumberOrVector fuel ⟨toks0, eofTok, cur, vars0⟩ tok = .ok (x, p1)) ∧
        whichType x ≠ .vectorType) ∧
    (pNumber tok = .ok x →
      toks0 = nt :: (ns ++ rest) →
      (∀ tk ∈ nt :: ns, tk.ttype = .Number ∨ tk.ttype = .Rational) →
      ((rest.headD eofTok).ttype ≠ .Number ∧ (rest.headD eofTok).ttype ≠ .Rational) →
      mapE pNumber (nt :: ns) = .ok xs →
      ns.length + 2 ≤ fuel →
      ∃ p2, NumberOrVector fuel ⟨toks0, eofTok, cur, vars0⟩ tok =
        .ok (.vector (x :: xs), p2)) := by
  constructor
  · intro hx hhead
    refine ⟨?_, ValueString_not_vector hx⟩
    unfold NumberOrVector
    rw [hx]
    simp only [Bind.bind, Except.bind, pPeek]
    cases toks0 with
    | nil =>
        rw [if_pos (by simp [eofTok])]
        exact ⟨_, rfl⟩
    | cons r rs =>
        simp only [List.headD] at hhead
        rw [if_pos ⟨hhead.1, hhead.2⟩]
        exact ⟨_, rfl⟩
  · intro hx htoks hnums hrest hxs hfuel
    subst htoks
    have hnt : nt.ttype = TokType.Number ∨ nt.ttype = TokType.Rational :=
      hnums nt (by simp)
    simp only [mapE] at hxs
    cases hnt1 : pNumber nt with
    | error e =>
        rw [hnt1] at hxs
        simp only [Bind.bind, Except.bind] at hxs
        exact Except.noConfusion hxs
    | ok x1 =>
        rw [hnt1] at hxs
        cases hns : mapE pNumber ns with
        | error e =>
            rw [hns] at hxs
            simp only [Bind.bind, Except.bind] at hxs
            exact Except.noConfusion hxs
        | ok xs1 =>
            rw [hns] at hxs
            simp only [Bind.bind, Except.bind] at hxs
            cases hxs
            unfold NumberOrVector
            rw [hx]
            simp only [Bind.bind, Except.bind, pPeek]
            rw [if_neg (by rcases hnt with h | h <;> simp [h, eofTok])]
            have heof : ¬ (eofTok.ttype ≠ TokType.EOF) := by simp [eofTok]
            simp only [if_neg heof]
            obtain ⟨p', hp'⟩ := numVecLoop_run ns rest fuel (ns ++ rest) cur vars0
              [x] nt x1 xs1 hnt (fun tk htk => hnums tk (by simp [htk]))
              rfl hrest hnt1 hns hfuel
            rw [hp']
            exact ⟨p', by simp⟩

/-- C10 witness: a single 7 followed by a newline stays the scalar
SmallInt 7, and the run 1 2 3 collapses into the three-element vector
(1 2 3). -/
theorem C10_number_or_vector_witness :
    (∃ p1, NumberOrVector 5 ⟨[⟨.Newline, "nl"⟩], eofTok, eofTok, []⟩ ⟨.Number, "7"⟩ =
        .ok (Value.int 7, p1)) ∧
    whichType (Value.int 7) ≠ valueType.vectorType ∧
    (∃ p2, NumberOrVector 5
        ⟨[⟨.Number, "2"⟩, ⟨.Number, "3"⟩, ⟨.Newline, "nl"⟩], eofTok, eofTok, []⟩
        ⟨.Number, "1"⟩ =
      .ok (Value.vector [Value.int 1, Value.int 2, Value.int 3], p2)) := by
  refine ⟨?_, ?_, ?_⟩
  · exact ((C10_number_or_vector 5 [⟨.Newline, "nl"⟩] [] eofTok [] ⟨.Number, "7"⟩
      eofTok [] (Value.int 7) []).1 rfl (by decide)).1
  · exact ((C10_number_or_vector 5 [⟨.Newline, "nl"⟩] [] eofTok [] ⟨.Number, "7"⟩
      eofTok [] (Value.int 7) []).1 rfl (by decide)).2
  · exact (C10_number_or_vector 5 [⟨.Number, "2"⟩, ⟨.Number, "3"⟩, ⟨.Newline, "nl"⟩]
      [⟨.Newline, "nl"⟩] eofTok [] ⟨.Number, "1"⟩ ⟨.Number, "2"⟩ [⟨.Number, "3"⟩]
      (Value.int 1) [Value.int 2, Value.int 3]).2 rfl rfl (by decide) (by decide)
      rfl (by simp)

/-- Reading from the lexer with an empty pushback slot. -/
theorem pNext_read (t : Token) (ts : List Token) (cur : Token)
    (vars : List (String × Value)) :
    pNext ⟨t :: ts, eofTok, cur, vars⟩ = (t, ⟨ts, eofTok, t, vars⟩) := rfl

/-- Draining a non-empty pushback slot. -/
theorem pNext_buffered (tok : Token) (ts : List Token) (cur : Token)
    (vars : List (String × Value)) (h : tok.ttype ≠ TokType.EOF) :
    pNext ⟨ts, tok, cur, vars⟩ = (tok, ⟨ts, eofTok, cur, vars⟩) := by
  simp [pNext, h]

/-- Peeking fills the pushback slot from the lexer. -/
theorem pPeek_fill (t : Token) (ts : List Token) (cur : Token)
    (vars : List (String × Value)) :
    pPeek ⟨t :: ts, eofTok, cur, vars⟩ = (t, ⟨ts, t, cur, vars⟩) := rfl

/-- C8: a line `name := expr` evaluates the expression, binds the
resulting Value both to name and to `_`, and yields no displayable
value (`none`, with the session continuing); a bare expression line —
whether it starts with an operator, parenthesis, number, rational, or
an identifier not followed by `:=` — evaluates, binds the result to
`_`, and yields the result for display. -/
theorem C8_line_assignment_and_bare (fuel : ℕ) (name atext tx : String)
    (cur0 eTok n2 t5 : Token) (tt1 : TokType) (rest' restB rest2 : List Token)
    (vars0 : List (String × Value)) (x : PExpr) (p4 p5 : PState) (val : Value) :
    (name ≠ "" →
      pExpr fuel ⟨rest', eofTok, eTok, vars0⟩ eTok = .ok (x, p4) →
      pNext p4 = (t5, p5) →
      (t5.ttype = .Newline ∨ t5.ttype = .EOF) →
      evalExpr fuel x = .ok val →
      pLine fuel ⟨⟨.Identifier, name⟩ :: ⟨.Assign, atext⟩ :: eTok :: rest',
          eofTok, cur0, vars0⟩ =
        .ok (none, true, { p5 with vars := (name, val) :: ("_", val) :: p5.vars }) ∧
      List.lookup name ((name, val) :: ("_", val) :: p5.vars) = some val ∧
      List.lookup "_" ((name, val) :: ("_", val) :: p5.vars) = some val) ∧
    ((tt1 = .Operator ∨ tt1 = .LeftParen ∨ tt1 = .Number ∨ tt1 = .Rational) →
      pExpr fuel ⟨restB, eofTok, ⟨tt1, tx⟩, vars0⟩ ⟨tt1, tx⟩ = .ok (x, p4) →
      pNext p4 = (t5, p5) →
      (t5.ttype = .Newline ∨ t5.ttype = .EOF) →
      evalExpr fuel x = .ok val →
      pLine fuel ⟨⟨tt1, tx⟩ :: restB, eofTok, cur0, vars0⟩ =
        .ok (some val, true, { p5 with vars := ("_", val) :: p5.vars }) ∧
      List.lookup "_" (("_", val) :: p5.vars) = some val) ∧
    (n2.ttype ≠ .Assign →
      pExpr fuel ⟨rest2, n2, ⟨.Identifier, name⟩, vars0⟩ ⟨.Identifier, name⟩ =
        .ok (x, p4) →
      pNext p4 = (t5, p5) →
      (t5.ttype = .Newline ∨ t5.ttype = .EOF) →
      evalExpr fuel x = .ok val →
      pLine fuel ⟨⟨.Identifier, name⟩ :: n2 :: rest2, eofTok, cur0, vars0⟩ =
        .ok (some val, true, { p5 with vars := ("_", val) :: p5.vars }) ∧
      List.lookup "_" (("_", val) :: p5.vars) = some val) := by
  refine ⟨?_, ?_, ?_⟩
  · intro hname hex hnx ht5 hev
    constructor
    · unfold pLine
      simp only [pNext_read, pPeek_fill,
        pNext_buffered _ _ _ _
          (show (⟨TokType.Assign, atext⟩ : Token).ttype ≠ TokType.EOF by simp),
        eq_self_iff_true, if_true]
      rw [hex]
      simp only [Bind.bind, Except.bind]
      rw [hnx]
      rw [if_neg (by rcases ht5 with h | h <;> simp [h])]
      rw [hev]
      simp only [Bind.bind, Except.bind]
      rw [if_pos hname]
    · constructor
      · simp [List.lookup]
      · cases hb : ("_" == name) <;> simp [List.lookup, hb]
  · intro htt hex hnx ht5 hev
    constructor
    · rcases htt with h | h | h | h <;>
        (subst h
         unfold pLine
         simp only [pNext_read,
           if_neg (show TokType.Operator ≠ TokType.Identifier by decide),
           if_neg (show TokType.LeftParen ≠ TokType.Identifier by decide),
           if_neg (show TokType.Number ≠ TokType.Identifier by decide),
           if_neg (show TokType.Rational ≠ TokType.Identifier by decide)]
         rw [hex]
         simp only [Bind.bind, Except.bind]
         rw [hnx]
         rw [if_neg (by rcases ht5 with h | h <;> simp [h])]
         rw [hev]
         simp only [Bind.bind, Except.bind]
         rw [if_neg (show ¬ (("" : String) ≠ "") by simp)]
         simp)
    · simp [List.lookup]
  · intro hn2 hex hnx ht5 hev
    constructor
    · unfold pLine
      simp only [pNext_read, pPeek_fill, eq_self_iff_true, if_true]
      rw [if_neg hn2]
      simp only [Bind.bind, Except.bind]
      rw [hex]
      simp only [Bind.bind, Except.bind]
      rw [hnx]
      rw [if_neg (by rcases ht5 with h | h <;> simp [h])]
      rw [hev]
      simp only [Bind.bind, Except.bind]
      rw [if_neg (show ¬ (("" : String) ≠ "") by simp)]
      simp
    · simp [List.lookup]

/-- C8 witness: the line `x := 5 \n` yields no displayable value and
binds both x and `_` to 5; the bare line `7 \n` yields 7 for display
and binds `_` to it. -/
theorem C8_line_witness :
    (pLine 9 ⟨[⟨.Identifier, "x"⟩, ⟨.Assign, ":="⟩, ⟨.Number, "5"⟩, ⟨.Newline, "nl"⟩],
        eofTok, eofTok, []⟩ =
      .ok (none, true, ⟨[], eofTok, ⟨.Number, "5"⟩,
        [("x", Value.int 5), ("_", Value.int 5)]⟩) ∧
      List.lookup "x" [("x", Value.int 5), ("_", Value.int 5)] = some (Value.int 5) ∧
      List.lookup "_" [("x", Value.int 5), ("_", Value.int 5)] = some (Value.int 5)) ∧
    (pLine 9 ⟨[⟨.Number, "7"⟩, ⟨.Newline, "nl"⟩], eofTok, eofTok, []⟩ =
      .ok (some (Value.int 7), true, ⟨[], eofTok, ⟨.Number, "7"⟩,
        [("_", Value.int 7)]⟩) ∧
      List.lookup "_" [("_", Value.int 7)] = some (Value.int 7)) := by
  constructor
  · exact (C8_line_assignment_and_bare 9 "x" ":=" "" eofTok ⟨.Number, "5"⟩ eofTok
      ⟨.Newline, "nl"⟩ TokType.Number [⟨.Newline, "nl"⟩] [] [] []
      (.val (Value.int 5)) ⟨[], ⟨.Newline, "nl"⟩, ⟨.Number, "5"⟩, []⟩
      ⟨[], eofTok, ⟨.Number, "5"⟩, []⟩ (Value.int 5)).1
      (by decide) rfl rfl (Or.inl rfl) rfl
  · exact (C8_line_assignment_and_bare 9 "x" ":=" "7" eofTok ⟨.Number, "5"⟩ eofTok
      ⟨.Newline, "nl"⟩ TokType.Number [] [⟨.Newline, "nl"⟩] [] []
      (.val (Value.int 7)) ⟨[], ⟨.Newline, "nl"⟩, ⟨.Number, "7"⟩, []⟩
      ⟨[], eofTok, ⟨.Number, "7"⟩, []⟩ (Value.int 7)).2.1
      (Or.inr (Or.inr (Or.inl rfl))) rfl rfl (Or.inl rfl) rfl
